import Mathlib

/-!
Verification of the streaming agent-report client of the stock-analysis
repository.

The definitions below are a shallow embedding of the client-side event
router and view logic:

* `handleMessage`, `processEvents` embed the `handleMessage` callback of
  `AgentReport` (src/web/src/components/agent-report/index.tsx, lines
  95-192) together with the initial component state (lines 76-85).
  React state is modelled as an explicit record `RouterState`; each state
  setter becomes a field update.  JavaScript objects used as string-keyed
  maps (`progressNodes`, `stepContents`) are modelled as insertion-ordered
  association lists.  A JavaScript property read on a missing key yields
  `undefined`; reading a field of `undefined` throws, which is modelled by
  `handleMessage` returning `none` (the component crashes and processes no
  further state updates).  Fields that a lodash `merge` may leave absent
  are modelled as `Option` fields.
* `deriveViewMode` embeds the `viewMode` memo of `ThinkingAndReport`
  (src/unnamed/part_012, lines 46-92).
* `deliver` / `deliverAll` embed the SSE wiring of `stockApi.getAgentReport`
  (src/web/src/api/client.ts, lines 144-219): the repository registers
  listeners that forward each parsed event to `onMessage` and call
  `es.close()` inside the `error` and `complete` listeners.  The platform
  guarantee that a closed `EventSource` dispatches no further events is
  modelled by the `closed` flag gating delivery.
-/

/-- Factor detail payload carried by progress events
(src/web/src/types/index.ts, `FactorDetail`). -/
structure FactorDetail where
  key : String
  name : String
  status : String
  bullish_signals : List String
  bearish_signals : List String
  data_source : String
deriving DecidableEq

/-- Optional `data` payload of a progress event
(src/web/src/types/index.ts, `ProgressEvent.data`). -/
structure ProgressData where
  factors : Option (List FactorDetail)
  execution_time : Option Int
deriving DecidableEq

/-- Decision part of the final result
(src/web/src/types/index.ts, `AnalysisDecision`). -/
structure AnalysisDecision where
  action : String
  analysis : String
  thinking : Option String
deriving DecidableEq

/-- Final result carried by the `complete` event
(src/web/src/types/index.ts, `AnalysisResult`). -/
structure AnalysisResult where
  symbol : String
  stock_name : String
  decision : AnalysisDecision
  execution_times : List (String × Int)
  timestamp : Option String
deriving DecidableEq

/-- The tagged union of server-sent events
(src/web/src/types/index.ts, `AgentReportEvent`).  The `timestamp` field is
never read by the client and is omitted; the discriminating `type` tag is the
constructor. -/
inductive AgentReportEvent where
  | start (symbol : String) (message : Option String)
  | progress (step : String) (status : String) (message : String)
      (data : Option ProgressData)
  | streaming (step : String) (content : String)
  | thinking (step : String) (content : String)
  | error (message : String)
  | complete (result : AnalysisResult)
deriving DecidableEq

/-- The string values of the `NodeStatus` enum
(src/web/src/types/index.ts, lines 200-207).  Progress events carry the
status as a plain string on the wire, so statuses are modelled as `String`
with these named constants. -/
def NodeStatus.pending : String := "pending"

def NodeStatus.fetching : String := "fetching"

def NodeStatus.running : String := "running"

def NodeStatus.analyzing : String := "analyzing"

def NodeStatus.completed : String := "completed"

def NodeStatus.error : String := "error"

/-- An entry of the `progressNodes` map.  Entries are produced by lodash
`merge({}, prev, { [event.step]: event })`, so a node created by a
`streaming`/`thinking` event has no `status`/`message`/`data`, and a node
created by a `progress` event has no `content`; absent object fields are
`none`. -/
structure ProgressNode where
  step : String
  status : Option String
  message : Option String
  data : Option ProgressData
  content : Option String
deriving DecidableEq

/-- An entry of the `stepContents` map
(src/web/src/components/agent-report/index.tsx, `StepContent`, lines 67-72).
The `progress` branch can create an entry holding only `executionTime`
(spreading `undefined` adds no fields), so each field is optional. -/
structure StepContent where
  streaming : Option String
  thinking : Option String
  isStreaming : Option Bool
  executionTime : Option Int
deriving DecidableEq

/-- The React state of the `AgentReport` component
(src/web/src/components/agent-report/index.tsx, lines 76-85). -/
structure RouterState where
  progressNodes : List (String × ProgressNode)
  analysisResult : Option AnalysisResult
  stepContents : List (String × StepContent)
  error : Option String
  currentSymbol : Option String
  hasStarted : Bool
deriving DecidableEq

/-- JavaScript object read `m[k]`: first binding of the key, else absent. -/
def objGet {α : Type} : List (String × α) → String → Option α
  | [], _ => none
  | (k1, v) :: m, k => if k1 = k then some v else objGet m k

/-- JavaScript object write `{ ...m, [k]: v }`: replaces the binding in
place when the key exists, otherwise appends it. -/
def objSet {α : Type} : List (String × α) → String → α → List (String × α)
  | [], k, v => [(k, v)]
  | (k1, v1) :: m, k, v =>
    if k1 = k then (k, v) :: m else (k1, v1) :: objSet m k v

/-- JavaScript string concatenation `a + s` where `a` may be `undefined`
(an absent object field); `undefined + s` coerces to `"undefined" ++ s`. -/
def jsUndefinedAdd : Option String → String → String
  | some a, s => a ++ s
  | none, s => "undefined" ++ s

/-- lodash index-wise merge of two arrays of primitive strings: the source
element wins per index, surplus elements of either side are kept. -/
def mergeStringList : List String → List String → List String
  | o, [] => o
  | [], s => s
  | _ :: o, b :: s => b :: mergeStringList o s

/-- lodash deep merge of one factor object into another: every field of the
source is present, so scalar fields are overwritten and the signal arrays
are merged index-wise. -/
def mergeFactorDetail (o s : FactorDetail) : FactorDetail :=
  { key := s.key
    name := s.name
    status := s.status
    bullish_signals := mergeStringList o.bullish_signals s.bullish_signals
    bearish_signals := mergeStringList o.bearish_signals s.bearish_signals
    data_source := s.data_source }

/-- lodash index-wise merge of two factor arrays. -/
def mergeFactorList : List FactorDetail → List FactorDetail → List FactorDetail
  | o, [] => o
  | [], s => s
  | a :: o, b :: s => mergeFactorDetail a b :: mergeFactorList o s

/-- lodash deep merge of the optional `data` payloads: an absent source is
skipped, otherwise fields merge recursively with absent source fields
skipped. -/
def mergeOptData : Option ProgressData → Option ProgressData → Option ProgressData
  | old, none => old
  | none, some s => some s
  | some o, some s =>
    some
      { factors :=
          match o.factors, s.factors with
          | old1, none => old1
          | none, some s1 => some s1
          | some o1, some s1 => some (mergeFactorList o1 s1)
        execution_time :=
          match s.execution_time with
          | some t => some t
          | none => o.execution_time }

/-- Effect of `merge({}, prev, { [event.step]: event })` at key `event.step`
for a `progress` event: `step`, `status`, `message` are overwritten, `data`
is deep-merged, the `content` field (absent on the event) is kept. -/
def mergeProgressNode (old : Option ProgressNode) (step status message : String)
    (data : Option ProgressData) : ProgressNode :=
  match old with
  | none =>
    { step := step, status := some status, message := some message,
      data := data, content := none }
  | some o =>
    { step := step, status := some status, message := some message,
      data := mergeOptData o.data data, content := o.content }

/-- Effect of `merge({}, prev, { [event.step]: event })` at key `event.step`
for a `streaming`/`thinking` event: only `step` and `content` are present on
the event, so the node keeps its `status`, `message` and `data`. -/
def mergeDeltaNode (old : Option ProgressNode) (step content : String) :
    ProgressNode :=
  match old with
  | none =>
    { step := step, status := none, message := none, data := none,
      content := some content }
  | some o =>
    { step := step, status := o.status, message := o.message, data := o.data,
      content := some content }

/-- Character-by-character prefix test on character lists. -/
def charsStart : List Char → List Char → Bool
  | _, [] => true
  | [], _ :: _ => false
  | c :: s, p :: ps => if c = p then charsStart s ps else false

/-- Model of JavaScript `s.startsWith(pre)` (and of `String.startsWith`,
whose byte-level comparison of UTF-8 encodings agrees with the character
prefix test). -/
def strStarts (s pre : String) : Bool :=
  charsStart s.data pre.data

/-- `getStepKey` (src/web/src/components/agent-report/index.tsx,
lines 88-93): normalizes a step name to its step family. -/
def getStepKey (step : String) : String :=
  if strStarts step "fundamental_analyzer" then "fundamental_analyzer"
  else if strStarts step "technical_analyzer" then "technical_analyzer"
  else if strStarts step "coordinator" then "coordinator"
  else step

/-- The initial value of one `stepContents` entry
(src/web/src/components/agent-report/index.tsx, lines 79-81). -/
def initStepContent : StepContent :=
  { streaming := some "", thinking := some "", isStreaming := some false,
    executionTime := some 0 }

/-- The initial `stepContents` map, also re-installed by the `start` branch
and by the symbol-change reset. -/
def initStepContents : List (String × StepContent) :=
  [("fundamental_analyzer", initStepContent),
   ("technical_analyzer", initStepContent),
   ("coordinator", initStepContent)]

/-- The initial component state (src/web/src/components/agent-report/index.tsx,
lines 76-85). -/
def initState : RouterState :=
  { progressNodes := [], analysisResult := none,
    stepContents := initStepContents, error := none, currentSymbol := none,
    hasStarted := false }

/-- The symbol-change reset performed by the `useEffect`
(src/web/src/components/agent-report/index.tsx, lines 206-217): every piece
of state is set back to its initial value, regardless of the previous
state. -/
def resetSession (_prev : RouterState) : RouterState :=
  { progressNodes := [], analysisResult := none,
    stepContents := initStepContents, error := none, currentSymbol := none,
    hasStarted := false }

/-- The `handleMessage` callback
(src/web/src/components/agent-report/index.tsx, lines 95-192) as a state
transformer.  `none` models the TypeError thrown when a `streaming` or
`thinking` branch reads `prev[stepKey].streaming` / `prev[stepKey].thinking`
with no entry at `stepKey` (the updater throws during the React render and
the component crashes).  The truthiness test `if (event.data?.execution_time)`
is false for an absent payload, an absent field, and the number `0`. -/
def handleMessage (st : RouterState) (event : AgentReportEvent) :
    Option RouterState :=
  match event with
  | .start symbol _message =>
    some { st with currentSymbol := some symbol, hasStarted := true,
                   stepContents := initStepContents }
  | .progress step status message data =>
    let nodes :=
      objSet st.progressNodes step
        (mergeProgressNode (objGet st.progressNodes step) step status message data)
    let st1 := { st with progressNodes := nodes }
    match data with
    | none => some st1
    | some d =>
      match d.execution_time with
      | none => some st1
      | some t =>
        if t = 0 then some st1
        else
          let stepKey := getStepKey step
          let entry :=
            match objGet st1.stepContents stepKey with
            | some c => { c with executionTime := some t }
            | none =>
              { streaming := none, thinking := none, isStreaming := none,
                executionTime := some t }
          some { st1 with stepContents := objSet st1.stepContents stepKey entry }
  | .streaming step content =>
    let stepKey := getStepKey step
    match objGet st.stepContents stepKey with
    | none => none
    | some c =>
      let entry :=
        { c with streaming := some (jsUndefinedAdd c.streaming content),
                 isStreaming := some true }
      let nodes :=
        objSet st.progressNodes step
          (mergeDeltaNode (objGet st.progressNodes step) step content)
      some { st with stepContents := objSet st.stepContents stepKey entry,
                     progressNodes := nodes }
  | .thinking step content =>
    let stepKey := getStepKey step
    match objGet st.stepContents stepKey with
    | none => none
    | some c =>
      let entry :=
        { c with thinking := some (jsUndefinedAdd c.thinking content) }
      let nodes :=
        objSet st.progressNodes step
          (mergeDeltaNode (objGet st.progressNodes step) step content)
      some { st with stepContents := objSet st.stepContents stepKey entry,
                     progressNodes := nodes }
  | .error message => some { st with error := some message }
  | .complete result =>
    some { st with
      analysisResult := some result,
      stepContents :=
        st.stepContents.map (fun p => (p.1, { p.2 with isStreaming := some false })),
      progressNodes :=
        st.progressNodes.map (fun p =>
          (p.1,
            if p.2.status = some NodeStatus.running then
              { p.2 with status := some NodeStatus.completed }
            else p.2)) }

/-- Process an ordered event sequence; a crash aborts the rest. -/
def processEvents : RouterState → List AgentReportEvent → Option RouterState
  | st, [] => some st
  | st, e :: es =>
    match handleMessage st e with
    | none => none
    | some st1 => processEvents st1 es

/-- The two values of `ViewMode` (src/unnamed/part_012, line 13). -/
inductive ViewMode where
  | thinking
  | report
deriving DecidableEq

/-- The `viewMode` memo of `ThinkingAndReport`
(src/unnamed/part_012, lines 52-83).  `Boolean(s)` on a string is false
exactly for the empty string, so `hasThinking`/`hasReport` are the
non-emptiness of the two content props. -/
def deriveViewMode (userSelectedMode : Option ViewMode)
    (thinkingContent reportContent : String) (isStreaming : Bool) : ViewMode :=
  let hasThinking : Bool := thinkingContent ≠ ""
  let hasReport : Bool := reportContent ≠ ""
  match userSelectedMode with
  | some m =>
    if m = ViewMode.thinking ∧ ¬hasThinking then
      if hasReport then ViewMode.report else ViewMode.thinking
    else if m = ViewMode.report ∧ ¬hasReport then
      if hasThinking then ViewMode.thinking else ViewMode.report
    else m
  | none =>
    if hasThinking ∧ ¬hasReport then ViewMode.thinking
    else if ¬hasThinking ∧ hasReport then ViewMode.report
    else if hasThinking ∧ hasReport ∧ ¬isStreaming then ViewMode.report
    else if hasReport then ViewMode.report else ViewMode.thinking

/-- The content channel a user override points at. -/
def overrideChannelContent (m : ViewMode) (thinkingContent reportContent : String) :
    String :=
  match m with
  | ViewMode.thinking => thinkingContent
  | ViewMode.report => reportContent

/-- The opposite view. -/
def otherView : ViewMode → ViewMode
  | ViewMode.thinking => ViewMode.report
  | ViewMode.report => ViewMode.thinking

/-- The SSE connection of `stockApi.getAgentReport`
(src/web/src/api/client.ts, lines 144-219): a closed flag plus the router
state reached so far (`none` once the router has crashed). -/
structure Connection where
  closed : Bool
  routerState : Option RouterState
deriving DecidableEq

/-- The events whose listeners call `es.close()` after routing the event:
the `error` listener (src/web/src/api/client.ts, lines 187-197) and the
`complete` listener (lines 200-209). -/
def isTerminalEvent : AgentReportEvent → Bool
  | .error _ => true
  | .complete _ => true
  | _ => false

/-- One event arriving on the connection.  Listeners fire only while the
`EventSource` is open (platform guarantee of `close()`); an open connection
routes the event into `handleMessage` and then closes exactly when the
event is `error` or `complete`. -/
def deliver (c : Connection) (e : AgentReportEvent) : Connection :=
  if c.closed then c
  else
    { closed := isTerminalEvent e,
      routerState :=
        match c.routerState with
        | none => none
        | some st => handleMessage st e }

/-- Deliver a whole event sequence. -/
def deliverAll (c : Connection) (es : List AgentReportEvent) : Connection :=
  es.foldl deliver c

/-- Whether a step name belongs to one of the three step families the
component pre-initializes accumulators for. -/
def knownStep (step : String) : Bool :=
  strStarts step "fundamental_analyzer" || strStarts step "technical_analyzer"
    || strStarts step "coordinator"

/-- The three pre-initialized accumulators are present. -/
def accumsPresent (st : RouterState) : Prop :=
  (objGet st.stepContents "fundamental_analyzer").isSome = true
    ∧ (objGet st.stepContents "technical_analyzer").isSome = true
    ∧ (objGet st.stepContents "coordinator").isSome = true

/-- In-order concatenation of the `content` of the `streaming` events routed
to step family `k`. -/
def answersFor (k : String) : List AgentReportEvent → String
  | [] => ""
  | AgentReportEvent.streaming step content :: es =>
    if getStepKey step = k then content ++ answersFor k es else answersFor k es
  | _ :: es => answersFor k es

/-- In-order concatenation of the `content` of the `thinking` events routed
to step family `k`. -/
def reasoningsFor (k : String) : List AgentReportEvent → String
  | [] => ""
  | AgentReportEvent.thinking step content :: es =>
    if getStepKey step = k then content ++ reasoningsFor k es
    else reasoningsFor k es
  | _ :: es => reasoningsFor k es

/-- Whether an event is a delta (`streaming` or `thinking`). -/
def isDelta : AgentReportEvent → Bool
  | .streaming _ _ => true
  | .thinking _ _ => true
  | _ => false

/-- Boolean "every present value satisfies p" on an optional value. -/
def optHolds {α : Type} (p : α → Bool) : Option α → Bool
  | none => true
  | some a => p a

/-- A concrete final result used in witnesses. -/
def exampleResult : AnalysisResult :=
  { symbol := "AAPL", stock_name := "Apple",
    decision := { action := "buy", analysis := "ok", thinking := none },
    execution_times := [], timestamp := none }

/-- A concrete progress node in `running` status. -/
def exampleRunningNode : ProgressNode :=
  { step := "technical_analyzer", status := some NodeStatus.running,
    message := some "分析中", data := none, content := none }

/-- A concrete state with one running node. -/
def exampleRunningState : RouterState :=
  { initState with progressNodes := [("technical_analyzer", exampleRunningNode)] }

/-- The state `exampleRunningState` reaches on a `complete` event. -/
def exampleCompletedState : RouterState :=
  { progressNodes :=
      [("technical_analyzer",
        { exampleRunningNode with status := some NodeStatus.completed })],
    analysisResult := some exampleResult,
    stepContents := initStepContents,
    error := none, currentSymbol := none, hasStarted := false }

/-- A concrete delta sequence used in witnesses. -/
def exampleDeltas : List AgentReportEvent :=
  [AgentReportEvent.streaming "coordinator" "ab",
   AgentReportEvent.thinking "coordinator" "cd",
   AgentReportEvent.streaming "coordinator_streaming" "ef"]

/-- The coordinator accumulator after `exampleDeltas`. -/
def exampleDeltaContent : StepContent :=
  { streaming := some "abef", thinking := some "cd", isStreaming := some true,
    executionTime := some 0 }

/-- The state after a `thinking` delta for the coordinator on the initial
state. -/
def exampleAfterThinking : RouterState :=
  { initState with
    stepContents :=
      [("fundamental_analyzer", initStepContent),
       ("technical_analyzer", initStepContent),
       ("coordinator", { initStepContent with thinking := some "x" })],
    progressNodes :=
      [("coordinator",
        { step := "coordinator", status := none, message := none, data := none,
          content := some "x" })] }

/-- The state after a `streaming` delta for the coordinator on the initial
state. -/
def exampleAfterStreaming : RouterState :=
  { initState with
    stepContents :=
      [("fundamental_analyzer", initStepContent),
       ("technical_analyzer", initStepContent),
       ("coordinator",
        { initStepContent with streaming := some "x", isStreaming := some true })],
    progressNodes :=
      [("coordinator",
        { step := "coordinator", status := none, message := none, data := none,
          content := some "x" })] }

/-- A concrete open connection at the initial state. -/
def exampleConnection : Connection :=
  { closed := false, routerState := some initState }

theorem objGet_objSet {α : Type} (m : List (String × α)) (k k1 : String) (v : α) :
    objGet (objSet m k v) k1 = if k = k1 then some v else objGet m k1 := by
  induction m with
  | nil => by_cases h : k = k1 <;> simp [objGet, objSet, h]
  | cons p m ih =>
    obtain ⟨k2, v2⟩ := p
    by_cases h2 : k2 = k
    · subst h2
      by_cases h1 : k2 = k1 <;> simp [objGet, objSet, h1]
    · by_cases h1 : k2 = k1
      · subst h1
        have : ¬ k = k2 := fun h => h2 h.symm
        simp [objGet, objSet, h2, this]
      · simp [objGet, objSet, h2, h1, ih]

theorem objGet_map_pair {α β : Type} (g : String × α → β) (m : List (String × α))
    (k : String) :
    objGet (List.map (fun p => (p.1, g p)) m) k
      = (objGet m k).map (fun v => g (k, v)) := by
  induction m with
  | nil => simp [objGet]
  | cons p m ih =>
    obtain ⟨k2, v2⟩ := p
    by_cases h : k2 = k
    · subst h
      simp [objGet]
    · simp [objGet, h, ih]

theorem objGet_objSet_isSome {α : Type} (m : List (String × α)) (k k1 : String)
    (v : α) (h : (objGet m k1).isSome = true) :
    (objGet (objSet m k v) k1).isSome = true := by
  rw [objGet_objSet]
  split <;> simp [h]

theorem deliverAll_of_closed (es : List AgentReportEvent) (c : Connection)
    (h : c.closed = true) : deliverAll c es = c := by
  induction es with
  | nil => rfl
  | cons e es ih =>
    show deliverAll (deliver c e) es = c
    rw [show deliver c e = c by simp [deliver, h]]
    exact ih

theorem initState_buffers (k : String) (c : StepContent)
    (h : objGet initState.stepContents k = some c) :
    c.streaming = some "" ∧ c.thinking = some "" := by
  simp only [initState, initStepContents, objGet] at h
  split_ifs at h <;> (injection h with h; subst h; exact ⟨rfl, rfl⟩)

theorem processEvents_delta_buffers (es : List AgentReportEvent) :
    ∀ (st st1 : RouterState) (f g : String → String),
      (∀ e ∈ es, isDelta e = true) →
      (∀ k c, objGet st.stepContents k = some c →
        c.streaming = some (f k) ∧ c.thinking = some (g k)) →
      processEvents st es = some st1 →
      ∀ k c, objGet st1.stepContents k = some c →
        c.streaming = some (f k ++ answersFor k es)
          ∧ c.thinking = some (g k ++ reasoningsFor k es) := by
  induction es with
  | nil =>
    intro st st1 f g _ hinv hp k c hc
    simp only [processEvents, Option.some.injEq] at hp
    subst hp
    simpa [answersFor, reasoningsFor, String.append_empty] using hinv k c hc
  | cons e es ih =>
    intro st st1 f g hd hinv hp k c hc
    have hde : isDelta e = true := hd e (List.mem_cons_self e es)
    have hds : ∀ x ∈ es, isDelta x = true := fun x hx => hd x (List.mem_cons_of_mem e hx)
    cases e with
    | start symbol message => simp [isDelta] at hde
    | progress step status message data => simp [isDelta] at hde
    | error message => simp [isDelta] at hde
    | complete result => simp [isDelta] at hde
    | streaming step content =>
      rcases hg : objGet st.stepContents (getStepKey step) with _ | c0
      · rw [processEvents] at hp
        simp [handleMessage, hg] at hp
      · rw [processEvents] at hp
        simp only [handleMessage, hg] at hp
        have hinv2 : ∀ k1 c1,
            objGet (objSet st.stepContents (getStepKey step)
              { c0 with streaming := some (jsUndefinedAdd c0.streaming content),
                        isStreaming := some true }) k1 = some c1 →
            c1.streaming
                = some ((fun k2 => if getStepKey step = k2 then f k2 ++ content else f k2) k1)
              ∧ c1.thinking = some (g k1) := by
          intro k1 c1 h1
          rw [objGet_objSet] at h1
          by_cases hk : getStepKey step = k1
          · rw [if_pos hk] at h1
            injection h1 with h1
            subst h1
            obtain ⟨hstr, hth⟩ := hinv (getStepKey step) c0 hg
            rw [hk] at hstr hth
            simp [hstr, hth, jsUndefinedAdd, hk]
          · rw [if_neg hk] at h1
            obtain ⟨hstr, hth⟩ := hinv k1 c1 h1
            simp [hstr, hth, hk]
        have hres := ih _ st1
          (fun k2 => if getStepKey step = k2 then f k2 ++ content else f k2) g
          hds hinv2 hp k c hc
        obtain ⟨h1, h2⟩ := hres
        constructor
        · rw [h1]
          simp only [answersFor]
          by_cases hk : getStepKey step = k
          · simp only [if_pos hk, String.append_assoc]
          · simp only [if_neg hk]
        · rw [h2]
          simp only [reasoningsFor]
    | thinking step content =>
      rcases hg : objGet st.stepContents (getStepKey step) with _ | c0
      · rw [processEvents] at hp
        simp [handleMessage, hg] at hp
      · rw [processEvents] at hp
        simp only [handleMessage, hg] at hp
        have hinv2 : ∀ k1 c1,
            objGet (objSet st.stepContents (getStepKey step)
              { c0 with thinking := some (jsUndefinedAdd c0.thinking content) }) k1
              = some c1 →
            c1.streaming = some (f k1)
              ∧ c1.thinking
                = some ((fun k2 => if getStepKey step = k2 then g k2 ++ content else g k2) k1) := by
          intro k1 c1 h1
          rw [objGet_objSet] at h1
          by_cases hk : getStepKey step = k1
          · rw [if_pos hk] at h1
            injection h1 with h1
            subst h1
            obtain ⟨hstr, hth⟩ := hinv (getStepKey step) c0 hg
            rw [hk] at hstr hth
            simp [hstr, hth, jsUndefinedAdd, hk]
          · rw [if_neg hk] at h1
            obtain ⟨hstr, hth⟩ := hinv k1 c1 h1
            simp [hstr, hth, hk]
        have hres := ih _ st1 f
          (fun k2 => if getStepKey step = k2 then g k2 ++ content else g k2)
          hds hinv2 hp k c hc
        obtain ⟨h1, h2⟩ := hres
        constructor
        · rw [h1]
          simp only [answersFor]
        · rw [h2]
          simp only [reasoningsFor]
          by_cases hk : getStepKey step = k
          · simp only [if_pos hk, String.append_assoc]
          · simp only [if_neg hk]

theorem isSome_map {α β : Type} (f : α → β) (o : Option α)
    (h : o.isSome = true) : (o.map f).isSome = true := by
  cases o <;> simp at h ⊢

theorem objGet_isSome_map {α β : Type} (g : String × α → β)
    (m : List (String × α)) (k : String) (h : (objGet m k).isSome = true) :
    (objGet (List.map (fun p => (p.1, g p)) m) k).isSome = true := by
  rw [objGet_map_pair]
  exact isSome_map _ _ h

theorem getStepKey_known (step : String) (h : knownStep step = true) :
    getStepKey step = "fundamental_analyzer"
      ∨ getStepKey step = "technical_analyzer"
      ∨ getStepKey step = "coordinator" := by
  unfold knownStep at h
  unfold getStepKey
  rcases h1 : strStarts step "fundamental_analyzer" <;>
    rcases h2 : strStarts step "technical_analyzer" <;>
      rcases h3 : strStarts step "coordinator" <;>
        simp [h1, h2, h3] at h ⊢

theorem knownStep_accum (st : RouterState) (h : accumsPresent st) (step : String)
    (hk : knownStep step = true) :
    (objGet st.stepContents (getStepKey step)).isSome = true := by
  obtain ⟨h1, h2, h3⟩ := h
  rcases getStepKey_known step hk with hg | hg | hg <;> rw [hg] <;> assumption

theorem handleMessage_accums (st : RouterState) (e : AgentReportEvent)
    (st1 : RouterState) (hp : handleMessage st e = some st1)
    (h : accumsPresent st) : accumsPresent st1 := by
  obtain ⟨h1, h2, h3⟩ := h
  cases e with
  | start symbol message =>
    simp only [handleMessage, Option.some.injEq] at hp
    subst hp
    exact ⟨rfl, rfl, rfl⟩
  | progress step status message data =>
    rcases data with _ | d
    · simp only [handleMessage, Option.some.injEq] at hp
      subst hp
      exact ⟨h1, h2, h3⟩
    · rcases hdt : d.execution_time with _ | t
      · simp only [handleMessage, hdt, Option.some.injEq] at hp
        subst hp
        exact ⟨h1, h2, h3⟩
      · simp only [handleMessage, hdt] at hp
        by_cases h0 : t = 0
        · rw [if_pos h0] at hp
          simp only [Option.some.injEq] at hp
          subst hp
          exact ⟨h1, h2, h3⟩
        · rw [if_neg h0] at hp
          simp only [Option.some.injEq] at hp
          subst hp
          exact ⟨objGet_objSet_isSome _ _ _ _ h1, objGet_objSet_isSome _ _ _ _ h2,
            objGet_objSet_isSome _ _ _ _ h3⟩
  | streaming step content =>
    simp only [handleMessage] at hp
    rcases hg : objGet st.stepContents (getStepKey step) with _ | c0
    · rw [hg] at hp
      cases hp
    · rw [hg] at hp
      simp only [Option.some.injEq] at hp
      subst hp
      exact ⟨objGet_objSet_isSome _ _ _ _ h1, objGet_objSet_isSome _ _ _ _ h2,
        objGet_objSet_isSome _ _ _ _ h3⟩
  | thinking step content =>
    simp only [handleMessage] at hp
    rcases hg : objGet st.stepContents (getStepKey step) with _ | c0
    · rw [hg] at hp
      cases hp
    · rw [hg] at hp
      simp only [Option.some.injEq] at hp
      subst hp
      exact ⟨objGet_objSet_isSome _ _ _ _ h1, objGet_objSet_isSome _ _ _ _ h2,
        objGet_objSet_isSome _ _ _ _ h3⟩
  | error message =>
    simp only [handleMessage, Option.some.injEq] at hp
    subst hp
    exact ⟨h1, h2, h3⟩
  | complete result =>
    simp only [handleMessage, Option.some.injEq] at hp
    subst hp
    exact ⟨objGet_isSome_map _ _ _ h1, objGet_isSome_map _ _ _ h2,
      objGet_isSome_map _ _ _ h3⟩

theorem processEvents_accums (es : List AgentReportEvent) :
    ∀ (st st1 : RouterState), processEvents st es = some st1 →
      accumsPresent st → accumsPresent st1 := by
  induction es with
  | nil =>
    intro st st1 hp h
    simp only [processEvents, Option.some.injEq] at hp
    subst hp
    exact h
  | cons e es ih =>
    intro st st1 hp h
    rw [processEvents] at hp
    rcases hm : handleMessage st e with _ | st2
    · rw [hm] at hp
      cases hp
    · rw [hm] at hp
      exact ih st2 st1 hp (handleMessage_accums st e st2 hm h)

/-- Claim C1: for every step and every ordered sequence of delta events
processed by the client event router, the step's answer buffer is the
in-order concatenation of the `content` fields of the `streaming` events
routed to it, and the reasoning buffer is the in-order concatenation of the
`content` fields of the `thinking` events routed to it (deltas are
append-only, keyed by step family via `getStepKey`). -/
theorem streaming_thinking_buffers_are_delta_concats (es : List AgentReportEvent)
    (hall : ∀ e ∈ es, isDelta e = true) (k : String) (c : StepContent)
    (hc : (processEvents initState es).bind (fun st => objGet st.stepContents k)
      = some c) :
    c.streaming = some (answersFor k es) ∧ c.thinking = some (reasoningsFor k es) := by
  rcases hp : processEvents initState es with _ | st1
  · rw [hp] at hc
    cases hc
  · rw [hp] at hc
    simp only [Option.some_bind] at hc
    have hres := processEvents_delta_buffers es initState st1
      (fun _ => "") (fun _ => "") hall initState_buffers hp k c hc
    simpa [String.empty_append] using hres

/-- Witness for C1: a concrete three-delta sequence for the coordinator
family, whose final buffers are exactly the concatenations. -/
theorem streaming_thinking_buffers_witness :
    (∀ e ∈ exampleDeltas, isDelta e = true)
      ∧ ((processEvents initState exampleDeltas).bind
          (fun st => objGet st.stepContents "coordinator") = some exampleDeltaContent)
      ∧ (exampleDeltaContent.streaming = some (answersFor "coordinator" exampleDeltas)
          ∧ exampleDeltaContent.thinking
            = some (reasoningsFor "coordinator" exampleDeltas)) :=
  ⟨by decide, by decide,
    streaming_thinking_buffers_are_delta_concats exampleDeltas (by decide)
      "coordinator" exampleDeltaContent (by decide)⟩

/-- Claim C2: replaying the exact same ordered event sequence into a fresh
router twice yields identical final accumulated per-step state for every
step.  The router embeds as the pure fold `processEvents` of the event list
over `initState`, so the two replays are the same computation. -/
theorem replay_same_sequence_deterministic (es : List AgentReportEvent) (k : String) :
    (processEvents initState es).bind (fun st => objGet st.stepContents k)
        = (processEvents initState es).bind (fun st => objGet st.stepContents k)
      ∧ (processEvents initState es).bind (fun st => objGet st.progressNodes k)
        = (processEvents initState es).bind (fun st => objGet st.progressNodes k) :=
  ⟨rfl, rfl⟩

/-- Claim C3: with no user override, the derived view mode follows the
precedence: only reasoning content (answer empty) shows reasoning; in every
case where answer content exists — only-answer, or both while streaming, or
both terminal — the view is answer.  Equivalently, under the hypothesis that
some content exists, the view is reasoning exactly when the answer channel
is empty. -/
theorem auto_view_mode_precedence (t r : String) (s : Bool)
    (h : ¬(t = "" ∧ r = "")) :
    deriveViewMode none t r s
      = if r = "" then ViewMode.thinking else ViewMode.report := by
  by_cases ht : t = "" <;> by_cases hr : r = "" <;>
    simp_all [deriveViewMode]

/-- Witness for C3: reasoning-only content in streaming state shows the
reasoning view. -/
theorem auto_view_mode_witness :
    deriveViewMode none "推理" "" true
      = if ("" : String) = "" then ViewMode.thinking else ViewMode.report :=
  auto_view_mode_precedence "推理" "" true (by decide)

/-- Claim C4: a user override of the view persists (it is respected whenever
the channel it points at has content) and is re-validated against the
content state on every recomputation; an override pointing at an empty
channel is discarded in favor of the channel that has content. -/
theorem override_view_mode_revalidation (m : ViewMode) (t r : String) (s : Bool)
    (h : ¬(t = "" ∧ r = "")) :
    deriveViewMode (some m) t r s
      = if overrideChannelContent m t r ≠ "" then m else otherView m := by
  cases m <;> by_cases ht : t = "" <;> by_cases hr : r = "" <;>
    simp_all [deriveViewMode, overrideChannelContent, otherView]

/-- Witness for C4: an override pointing at the empty reasoning channel is
discarded in favor of the answer view. -/
theorem override_view_mode_witness :
    deriveViewMode (some ViewMode.thinking) "" "报告" false
      = if overrideChannelContent ViewMode.thinking "" "报告" ≠ "" then
          ViewMode.thinking
        else otherView ViewMode.thinking :=
  override_view_mode_revalidation ViewMode.thinking "" "报告" false (by decide)

/-- Claim C5: `complete` and connection-level `error` events are terminal:
delivering one closes the event source, and no later event of any kind is
delivered to or processed by the router in that session. -/
theorem terminal_event_closes_connection (c : Connection) (e : AgentReportEvent)
    (es : List AgentReportEvent) (h : isTerminalEvent e = true) :
    (deliver c e).closed = true ∧ deliverAll (deliver c e) es = deliver c e := by
  have hclosed : (deliver c e).closed = true := by
    by_cases hc : c.closed = true
    · simp [deliver, hc]
    · simp [deliver, hc, h]
  exact ⟨hclosed, deliverAll_of_closed es _ hclosed⟩

/-- Witness for C5: after an `error` event on an open connection, a later
`streaming` event changes nothing. -/
theorem terminal_event_closes_connection_witness :
    (deliver exampleConnection (AgentReportEvent.error "分析失败")).closed = true
      ∧ deliverAll (deliver exampleConnection (AgentReportEvent.error "分析失败"))
          [AgentReportEvent.streaming "coordinator" "x"]
        = deliver exampleConnection (AgentReportEvent.error "分析失败") :=
  terminal_event_closes_connection exampleConnection
    (AgentReportEvent.error "分析失败")
    [AgentReportEvent.streaming "coordinator" "x"] (by decide)

/-- Claim C6: after the router processes a `complete` event, every step's
isStreaming flag is false, every node whose status was exactly `running` has
been promoted to `completed` (others keep their status), and no node remains
in `running` status. -/
theorem complete_clears_running_and_streaming (st : RouterState)
    (r : AnalysisResult) (st1 : RouterState) (k : String)
    (h : handleMessage st (AgentReportEvent.complete r) = some st1) :
    (objGet st1.stepContents k).map (fun c => c.isStreaming)
        = (objGet st.stepContents k).map (fun _ => some false)
      ∧ (objGet st1.progressNodes k).map (fun n => n.status)
        = (objGet st.progressNodes k).map (fun n =>
            if n.status = some NodeStatus.running then some NodeStatus.completed
            else n.status)
      ∧ optHolds (fun n => !(n.status == some NodeStatus.running))
          (objGet st1.progressNodes k) = true := by
  simp only [handleMessage, Option.some.injEq] at h
  subst h
  refine ⟨?_, ?_, ?_⟩
  · simp only [objGet_map_pair]
    rcases hg : objGet st.stepContents k with _ | c <;> simp
  · simp only [objGet_map_pair]
    rcases hg : objGet st.progressNodes k with _ | v
    · simp
    · by_cases hv : v.status = some "running" <;>
        simp [hv, NodeStatus.running, NodeStatus.completed]
  · simp only [objGet_map_pair]
    rcases hg : objGet st.progressNodes k with _ | v
    · simp [optHolds]
    · by_cases hv : v.status = some "running" <;>
        simp [optHolds, hv, NodeStatus.running, NodeStatus.completed]

/-- Witness for C6: completing a session with one running node marks it
completed and clears the streaming flag. -/
theorem complete_clears_running_witness :
    (objGet exampleCompletedState.stepContents "technical_analyzer").map
          (fun c => c.isStreaming)
        = (objGet exampleRunningState.stepContents "technical_analyzer").map
            (fun _ => some false)
      ∧ (objGet exampleCompletedState.progressNodes "technical_analyzer").map
            (fun n => n.status)
        = (objGet exampleRunningState.progressNodes "technical_analyzer").map
            (fun n =>
              if n.status = some NodeStatus.running then some NodeStatus.completed
              else n.status)
      ∧ optHolds (fun n => !(n.status == some NodeStatus.running))
          (objGet exampleCompletedState.progressNodes "technical_analyzer") = true :=
  complete_clears_running_and_streaming exampleRunningState exampleResult
    exampleCompletedState "technical_analyzer" (by decide)

/-- Counterexample to C7 as stated: the `start` event of a new session does
not clear the progress nodes, so a run whose prior session delivered a
progress event ends the new-session sequence with different progress-node
state than a fresh run of the same new-session sequence. -/
theorem start_event_preserves_prior_progress_nodes :
    ¬ ((processEvents initState
        [AgentReportEvent.progress "fundamental_analyzer" NodeStatus.error "boom" none,
         AgentReportEvent.start "AAPL" none]).map (fun st => st.progressNodes)
      = (processEvents initState [AgentReportEvent.start "AAPL" none]).map
          (fun st => st.progressNodes)) := by
  decide

/-- Claim C7 (amended): the reset triggered by a new request/target restores
the exact initial state, so two runs processing the same new-session
sequence after such a reset agree on all per-step state regardless of prior
events; the `start` event, by contrast, resets only the per-step content
buffers, the current symbol and the started flag, leaving progress nodes,
analysis result and error state from before in place. -/
theorem session_reset_full_and_start_partial (stA stB : RouterState)
    (es : List AgentReportEvent) (sym : String) (m : Option String) :
    processEvents (resetSession stA) es = processEvents (resetSession stB) es
      ∧ handleMessage stA (AgentReportEvent.start sym m)
        = some { stA with currentSymbol := some sym, hasStarted := true,
                          stepContents := initStepContents } :=
  ⟨rfl, rfl⟩

/-- Counterexample to C8 as stated: a `thinking` delta for the coordinator
step, processed from the initial (non-terminal) state, leaves the step's
isStreaming flag false. -/
theorem thinking_delta_leaves_isStreaming_false :
    ¬ (((processEvents initState
          [AgentReportEvent.thinking "coordinator" "hello"]).bind
        (fun st => objGet st.stepContents "coordinator")).map
          (fun c => c.isStreaming) = some (some true)) := by
  decide

/-- Claim C8 (amended): processing an answer (`streaming`) delta for a step
sets that step's isStreaming flag to true, while a reasoning (`thinking`)
delta leaves every step's isStreaming flag unchanged. -/
theorem streaming_sets_isStreaming_thinking_preserves (st : RouterState)
    (step content : String) (st1 st2 : RouterState) (k : String)
    (hs : handleMessage st (AgentReportEvent.streaming step content) = some st1)
    (ht : handleMessage st (AgentReportEvent.thinking step content) = some st2) :
    (objGet st1.stepContents (getStepKey step)).map (fun c => c.isStreaming)
        = some (some true)
      ∧ (objGet st2.stepContents k).map (fun c => c.isStreaming)
        = (objGet st.stepContents k).map (fun c => c.isStreaming) := by
  simp only [handleMessage] at hs ht
  rcases hg : objGet st.stepContents (getStepKey step) with _ | c0
  · rw [hg] at hs
    cases hs
  · rw [hg] at hs ht
    simp only [Option.some.injEq] at hs ht
    subst hs
    subst ht
    constructor
    · simp only [objGet_objSet, if_pos rfl]
      simp
    · simp only [objGet_objSet]
      by_cases hk : getStepKey step = k
      · rw [if_pos hk, ← hk, hg]
        simp
      · rw [if_neg hk]

/-- Witness for C8 (amended): a streaming delta turns the coordinator's
flag on; a thinking delta leaves the flag as in the initial state. -/
theorem streaming_thinking_isStreaming_witness :
    (objGet exampleAfterStreaming.stepContents (getStepKey "coordinator")).map
          (fun c => c.isStreaming) = some (some true)
      ∧ (objGet exampleAfterThinking.stepContents "coordinator").map
            (fun c => c.isStreaming)
        = (objGet initState.stepContents "coordinator").map
            (fun c => c.isStreaming) :=
  streaming_sets_isStreaming_thinking_preserves initState "coordinator" "x"
    exampleAfterStreaming exampleAfterThinking "coordinator" (by decide) (by decide)

/-- Counterexample to C9 as stated: a `streaming` event whose step does not
belong to one of the three pre-initialized families reads a field of an
absent accumulator and crashes the router. -/
theorem unknown_step_delta_crashes_router :
    processEvents initState [AgentReportEvent.streaming "news_analyzer" "x"]
      = none := by
  decide

/-- Claim C9 (amended): the per-step content accumulators for the three
known step families exist from initialization (rather than being created on
first event) in every reachable state and are never deleted, so a
`streaming` or `thinking` event for a step of a known family never accesses
a missing accumulator. -/
theorem known_step_accumulators_always_present (es : List AgentReportEvent)
    (st1 : RouterState) (h : processEvents initState es = some st1)
    (step content : String) (hk : knownStep step = true) :
    accumsPresent st1
      ∧ (handleMessage st1 (AgentReportEvent.streaming step content)).isSome = true
      ∧ (handleMessage st1 (AgentReportEvent.thinking step content)).isSome = true := by
  have hacc : accumsPresent st1 :=
    processEvents_accums es initState st1 h ⟨rfl, rfl, rfl⟩
  have hsome := knownStep_accum st1 hacc step hk
  refine ⟨hacc, ?_, ?_⟩ <;>
    · rcases hg : objGet st1.stepContents (getStepKey step) with _ | c
      · rw [hg] at hsome
        simp at hsome
      · simp [handleMessage, hg]

/-- Witness for C9 (amended): the initial state has all three accumulators
and accepts deltas for a suffixed coordinator step. -/
theorem known_step_accumulators_witness :
    accumsPresent initState
      ∧ (handleMessage initState
          (AgentReportEvent.streaming "coordinator_streaming" "x")).isSome = true
      ∧ (handleMessage initState
          (AgentReportEvent.thinking "coordinator_streaming" "x")).isSome = true :=
  known_step_accumulators_always_present [] initState rfl "coordinator_streaming" "x"
    (by decide)

/-- Claim C10: processing a `complete` event maps the progress-node table
pointwise: a node whose status is exactly `running` is promoted to
`completed`, and every other node — `pending`, `fetching`, `analyzing`,
`error`, `completed`, or statusless — is returned unchanged with its
status, message and data intact, so a step's failed state survives session
completion. -/
theorem complete_touches_only_running_nodes (st : RouterState) (r : AnalysisResult)
    (k : String) :
    (handleMessage st (AgentReportEvent.complete r)).bind
        (fun st1 => objGet st1.progressNodes k)
      = (objGet st.progressNodes k).map (fun v =>
          if v.status = some NodeStatus.running then
            { v with status := some NodeStatus.completed }
          else v) := by
  simp only [handleMessage, Option.some_bind]
  simp only [objGet_map_pair]
